import Mathlib

/-!
  # Verification of the agent decision-and-replay loop

  Shallow embedding of the core of the mls-vls-syndicator repository:
  the background agent loop (src/unnamed/part_000), the DOM action
  executor (src/unnamed/part_001) and the backend extension routes
  (src/backend/src/routes/extension.ts), together with theorems about
  the specified properties.

  JavaScript values that flow through the embedded code are modelled by
  the sum type `JsVal`; machine numbers are modelled as `Int` (the code
  only ever stringifies or truth-tests them).  Fallible operations return
  an error message alongside the unchanged state, mirroring thrown
  exceptions caught at the orchestrator boundary.
-/

/-- JavaScript runtime values as they appear in action payloads and
    listing data bags. -/
inductive JsVal where
  | str (s : String)
  | num (n : Int)
  | bool (b : Bool)
  | null
  | undef
  deriving DecidableEq, Repr

/-- JavaScript truthiness of a `JsVal`. -/
def jsTruthy : JsVal → Bool
  | .str s => if s = "" then false else true
  | .num n => if n = 0 then false else true
  | .bool b => b
  | .null => false
  | .undef => false

/-- JavaScript string coercion, as applied by String.prototype.replace to
    the value returned from a replacement callback. -/
def jsToString : JsVal → String
  | .str s => s
  | .num n => toString n
  | .bool b => if b then "true" else "false"
  | .null => "null"
  | .undef => "undefined"

/-- The JavaScript `a || b` operator on values. -/
def jsOr (a b : JsVal) : JsVal :=
  if jsTruthy a then a else b

/-- The JavaScript `typeof` operator's result string. -/
def typeofName : JsVal → String
  | .str _ => "string"
  | .num _ => "number"
  | .bool _ => "boolean"
  | .null => "object"
  | .undef => "undefined"

/-- The JavaScript `s || d` idiom on strings (empty string is falsy). -/
def jsOrStr (s d : String) : String :=
  if s = "" then d else s

/-! ## String utilities

  List-of-characters based helpers mirroring the JavaScript string
  methods used by the source (`toLowerCase`, `trim`, `includes`,
  `startsWith`).  Brace characters are built from char literals so that
  token strings can be assembled without brace escapes. -/

/-- Opening brace of a placeholder token. -/
def obrace : Char := '{'

/-- Closing brace of a placeholder token. -/
def cbrace : Char := '}'

/-- The two-character opener of a placeholder token. -/
def tokOpen : String := String.mk [obrace, obrace]

/-- The two-character closer of a placeholder token. -/
def tokClose : String := String.mk [cbrace, cbrace]

/-- JavaScript `toLowerCase` (ASCII, which is all the source compares). -/
def strToLower (s : String) : String :=
  String.mk (s.data.map Char.toLower)

/-- JavaScript `trim`: strip whitespace from both ends. -/
def jsTrim (s : String) : String :=
  String.mk (((s.data.dropWhile Char.isWhitespace).reverse.dropWhile Char.isWhitespace).reverse)

/-- Containment of `pat` in `hay`, as JavaScript `hay.includes(pat)`. -/
def listContains (pat : List Char) : List Char → Bool
  | [] => pat.isEmpty
  | c :: t => pat.isPrefixOf (c :: t) || listContains pat t

/-- JavaScript `hay.includes(pat)` on strings. -/
def strContains (hay pat : String) : Bool :=
  listContains pat.data hay.data

/-- JavaScript `s.startsWith(p)`. -/
def strStartsWith (s p : String) : Bool :=
  p.data.isPrefixOf s.data

/-! ## Listing record and the canonical field map

  Embeds the listing shape consumed by `replacePlaceholders` in
  src/backend/src/routes/extension.ts (get-next-action route).  Nullable
  database columns are `Option`; numeric columns are stringified through
  `?.toString()` which is modelled by `Option.map toString`. -/

/-- Association-list lookup with string keys (JavaScript object index). -/
def assocLookup (key : String) : List (String × α) → Option α
  | [] => none
  | (k, v) :: rest => if k = key then some v else assocLookup key rest

/-- A listing record as used by the deterministic decision source. -/
structure Listing where
  address : Option String
  city : Option String
  state : Option String
  zipCode : Option String
  description : Option String
  mlsNumber : Option String
  price : Option Int
  bedrooms : Option Int
  bathrooms : Option Int
  squareFeet : Option Int
  listingData : List (String × JsVal)
  deriving DecidableEq, Repr

/-- The canonical field map literal of `replacePlaceholders`, binding
    lower-case field names to listing attributes. -/
def canonicalFields (l : Listing) : List (String × Option String) :=
  [("address", l.address),
   ("city", l.city),
   ("state", l.state),
   ("zipcode", l.zipCode),
   ("zip", l.zipCode),
   ("price", l.price.map (fun n => toString n)),
   ("bedrooms", l.bedrooms.map (fun n => toString n)),
   ("bathrooms", l.bathrooms.map (fun n => toString n)),
   ("squarefeet", l.squareFeet.map (fun n => toString n)),
   ("description", l.description),
   ("mlsnumber", l.mlsNumber)]

/-- Indexing `fieldMap[field]`: an absent key and a key bound to a
    null/undefined attribute both yield nothing. -/
def fieldMapLookup (l : Listing) (field : String) : Option String :=
  match assocLookup field (canonicalFields l) with
  | some v => v
  | none => none

/-- Truthiness of `fieldMap[field]` (undefined, null and the empty
    string are falsy). -/
def truthyOptStr : Option String → Bool
  | some s => if s = "" then false else true
  | none => false

/-- Whether a lower-cased identifier is one of the canonical field names. -/
def isCanonicalField (f : String) : Bool :=
  ["address", "city", "state", "zipcode", "zip", "price", "bedrooms",
   "bathrooms", "squarefeet", "description", "mlsnumber"].any (fun n => n == f)

/-- The replacement callback of `replacePlaceholders`:
    `fieldMap[field] || listingData?.[fieldName] || match`, where `field`
    is the lower-cased identifier and the data bag is keyed by the
    original spelling.  Returns the replacement text for one token. -/
def resolveToken (l : Listing) (fieldName : String) : String :=
  let canon := fieldMapLookup l (strToLower fieldName)
  if truthyOptStr canon then canon.getD ""
  else
    match assocLookup fieldName l.listingData with
    | some v => if jsTruthy v then jsToString v else tokOpen ++ fieldName ++ tokClose
    | none => tokOpen ++ fieldName ++ tokClose

/-! ## The token scanner

  Embeds `value.replace(/{{(\w+)}}/g, fn)`: a left-to-right,
  non-overlapping scan; at each index a match requires two opening
  braces, a non-empty run of word characters, and two closing braces;
  replacement text is inserted verbatim and never rescanned. -/

/-- A word character of the regex class `\w` (ASCII letters, digits,
    underscore). -/
def isWordChar (c : Char) : Bool :=
  c.isAlphanum || c = '_'

/-- Attempt to read `IDENT` followed by two closing braces from the text
    after the two opening braces; on success return the identifier's
    characters and the remainder after the closing braces. -/
def matchToken (cs : List Char) : Option (List Char × List Char) :=
  let run := cs.takeWhile isWordChar
  if run.length = 0 then none
  else
    match cs.drop run.length with
    | c1 :: c2 :: tail =>
        if c1 = cbrace ∧ c2 = cbrace then some (run, tail) else none
    | _ => none

/-- One fuel-indexed pass of the global-regex replacement scan.  Fuel is
    consumed one unit per advance; a fuel of at least the list length is
    always sufficient (`substFuel_adequate`). -/
def substFuel (f : String → String) : Nat → List Char → List Char
  | 0, cs => cs
  | _ + 1, [] => []
  | fuel + 1, c :: rest =>
      if c = obrace then
        match rest with
        | c2 :: rest2 =>
            if c2 = obrace then
              match matchToken rest2 with
              | some (run, tail) => (f (String.mk run)).data ++ substFuel f fuel tail
              | none => c :: substFuel f fuel rest
            else c :: substFuel f fuel rest
        | [] => [c]
      else c :: substFuel f fuel rest

/-- The replacement scan over a character list. -/
def substChars (f : String → String) (cs : List Char) : List Char :=
  substFuel f cs.length cs

/-- The `replacePlaceholders` helper of the get-next-action route. -/
def replacePlaceholders (l : Listing) (s : String) : String :=
  String.mk (substChars (resolveToken l) s.data)

/-- Substitution applied to an arbitrary value: non-strings pass through
    untouched (`if (typeof value !== 'string') return value`). -/
def substituteJs (l : Listing) : JsVal → JsVal
  | .str s => .str (replacePlaceholders l s)
  | v => v

/-! ## Recorded actions and the deterministic decision source

  Embeds the replay half of the get-next-action route
  (src/backend/src/routes/extension.ts lines 166-223): cursor check,
  trace entry lookup, and placeholder processing of the `value` and
  `text` fields of the selected entry. -/

/-- A recorded trace entry (an action plus its recorded step number). -/
structure RecordedAction where
  action : String
  selector : Option String
  url : Option String
  key : Option String
  reasoning : Option String
  text : JsVal
  value : JsVal
  step : Nat
  deriving DecidableEq, Repr

/-- The route's processing of the selected entry: spread the entry and
    overwrite `value` and `text` with their substituted forms. -/
def processAction (l : Listing) (a : RecordedAction) : RecordedAction :=
  { a with value := substituteJs l a.value, text := substituteJs l a.text }

/-- Modelled from the spec: the specification's words ask for *every
    string-valued field* of the entry to be run through the Substitution
    Engine; this definition follows those words, for comparison with
    `processAction` which embeds the route's code. -/
def processActionSpecWords (l : Listing) (a : RecordedAction) : RecordedAction :=
  { action := replacePlaceholders l a.action,
    selector := a.selector.map (replacePlaceholders l),
    url := a.url.map (replacePlaceholders l),
    key := a.key.map (replacePlaceholders l),
    reasoning := a.reasoning.map (replacePlaceholders l),
    text := substituteJs l a.text,
    value := substituteJs l a.value,
    step := a.step }

/-- The JSON body of a get-next-action response (`data` object). -/
structure NextActionResponse where
  done : Bool
  action : Option RecordedAction
  step : Option Nat
  totalSteps : Option Nat
  deriving DecidableEq, Repr

/-- The deterministic decision source: the route first returns
    `done:true` when `currentStep >= actions.length`, otherwise the
    processed entry at the cursor with step index and total count. -/
def getNextAction (l : Listing) (actions : List RecordedAction) (currentStep : Nat) :
    NextActionResponse :=
  if h : currentStep < actions.length then
    { done := false,
      action := some (processAction l (actions.get ⟨currentStep, h⟩)),
      step := some currentStep,
      totalSteps := some actions.length }
  else
    { done := true, action := none, step := none, totalSteps := none }

/-! ## The agent loop (src/unnamed/part_000, runAgent)

  The loop is embedded as a function over a per-pass environment list:
  each `PassEnv` supplies what the outside world would answer during one
  pass of the `while` loop (whether a cooperative stop has landed, the
  results of the up-to-three decision-endpoint attempts, and the outcome
  of executing the chosen action on the tab).  Screenshot, page-info and
  inspection calls carry no state relevant to the claims and are elided.
  The loop additionally returns the list of actions it handed to
  `executeActionOnTab`, the observable execution trace. -/

/-- The action object inside an ai-decision payload. -/
structure DecAction where
  action : String
  selector : Option String
  reasoning : Option String
  deriving DecidableEq, Repr

/-- An ai-decision response body (`aiData.data`): free-text commentary,
    the chosen action, and an optional explicit done flag as produced by
    the backend's end-turn branch. -/
structure DecisionPayload where
  response : Option String
  action : Option DecAction
  done : Option Bool
  deriving DecidableEq, Repr

/-- Outcome of one fetch of the ai-decision endpoint: a transport-level
    failure (rejected fetch or `success:false` envelope), or a parsed
    body whose `data` may itself be absent. -/
inductive DecisionResult where
  | transportErr (msg : String)
  | ok (data : Option DecisionPayload)
  deriving DecidableEq, Repr

/-- Environment for one pass of the agent `while` loop. -/
structure PassEnv where
  stopRequested : Bool
  att : Nat → DecisionResult
  execOk : Option String

/-- One entry of the in-memory action history. -/
structure HistEntry where
  action : String
  selector : Option String
  result : String
  deriving DecidableEq, Repr

/-- Push an entry and evict the oldest entry when the length exceeds 10
    (`push` then conditional `shift`). -/
def pushTrim (hist : List HistEntry) (e : HistEntry) : List HistEntry :=
  let h := hist ++ [e]
  if h.length > 10 then h.drop 1 else h

/-- The completion heuristic applied to the decision's text response. -/
def completionPhrase (text : String) : Bool :=
  strContains (strToLower text) "task complete" || strContains (strToLower text) "finished"

/-- The decision retry loop, indexed by the number of remaining loop
    entries (`3 - retries`, so the `while (retries < MAX_RETRIES)`
    condition is `remaining > 0`).  Returns the decision result together
    with the list of backoff delays (ms) actually waited; falling out of
    the loop without a response models the undefined `response` checked
    right after the loop. -/
def retryGo (att : Nat → DecisionResult) : Nat → Nat → DecisionResult × List Nat
  | 0, _ => (.ok none, [])
  | remaining + 1, retries =>
      match att retries with
      | .ok d => (.ok d, [])
      | .transportErr m =>
          let r2 := retries + 1
          if 3 ≤ r2 then (.transportErr ("API failed after 3 attempts: " ++ m), [])
          else
            let r := retryGo att remaining r2
            (r.1, (1000 * 2 ^ r2) :: r.2)

/-- The per-iteration decision call with up to `MAX_RETRIES = 3` attempts. -/
def decisionRetryLoop (att : Nat → DecisionResult) : DecisionResult × List Nat :=
  retryGo att 3 0

/-- How the run's `while` loop ends. -/
inductive LoopExit where
  | completedDone
  | maxIterations
  | stopped
  | failedErr (msg : String)
  | outOfEnv
  deriving DecidableEq, Repr

/-- Loop state at the moment the `while` loop ends (before teardown). -/
structure LoopResult where
  exit : LoopExit
  iteration : Nat
  history : List HistEntry
  currentStep : Nat
  executed : List DecAction
  deriving DecidableEq, Repr

/-- Result of one pass of the loop body: an exit (with the iteration
    counter at that point), or the updated counters plus the action that
    was handed to the executor. -/
inductive StepOut where
  | exitNow (x : LoopExit) (iter2 : Nat)
  | next (iter2 : Nat) (hist2 : List HistEntry) (step2 : Nat) (acted : DecAction)

/-- One pass of the agent loop body: stop flag and iteration cap are the
    `while` condition; then the retried decision call; then the
    completion check (`textResponse` phrases or a null action); then
    execution with success/failure bookkeeping.  A failed execution
    decrements the iteration counter; a successful one advances
    `currentStep`. -/
def passStep (e : PassEnv) (iteration : Nat) (hist : List HistEntry) (step : Nat) : StepOut :=
  if e.stopRequested then .exitNow .stopped iteration
  else if 50 ≤ iteration then .exitNow .maxIterations iteration
  else
    let it := iteration + 1
    match (decisionRetryLoop e.att).1 with
    | .transportErr m => .exitNow (.failedErr m) it
    | .ok none => .exitNow (.failedErr "No response from API") it
    | .ok (some p) =>
        let text := p.response.getD ""
        if completionPhrase text || p.action.isNone then .exitNow .completedDone it
        else
          match p.action with
          | none => .exitNow .completedDone it
          | some a =>
              match e.execOk with
              | none =>
                  .next it (pushTrim hist ⟨a.action, a.selector, "success"⟩) (step + 1) a
              | some msg =>
                  .next (it - 1)
                    (pushTrim hist ⟨jsOrStr a.action "unknown", a.selector, "failed: " ++ msg⟩)
                    step a

/-- The agent `while` loop over a list of pass environments.  An empty
    environment with the cap not yet reached yields the artificial
    `outOfEnv` exit (the real loop would keep running). -/
def agentLoop : List PassEnv → Nat → List HistEntry → Nat → List DecAction → LoopResult
  | [], iteration, hist, step, ex =>
      if iteration < 50 then ⟨.outOfEnv, iteration, hist, step, ex⟩
      else ⟨.maxIterations, iteration, hist, step, ex⟩
  | e :: rest, iteration, hist, step, ex =>
      match passStep e iteration hist step with
      | .exitNow x it2 => ⟨x, it2, hist, step, ex⟩
      | .next it2 hist2 step2 a => agentLoop rest it2 hist2 step2 (ex ++ [a])

/-! ## Pre-flight question classifier (isJustAQuestion) -/

/-- Greeting alternatives of the pre-flight greeting pattern. -/
def greetingWords : List String :=
  ["hi", "hello", "hey", "good morning", "good afternoon", "good evening"]

/-- A trailing character admitted after a greeting (whitespace, bang, dot). -/
def greetingTail (c : Char) : Bool :=
  c.isWhitespace || c = '!' || c = '.'

/-- Whole-string match of the greeting pattern. -/
def greetingOnly (m : String) : Bool :=
  greetingWords.any (fun g =>
    g.data.isPrefixOf m.data && (m.data.drop g.data.length).all greetingTail)

/-- Anchored question patterns about the extension itself. -/
def questionStarts : List String :=
  ["what can you do", "what are you", "who are you", "how do you work",
   "what is this", "how does this work"]

/-- Whether the message matches one of the anchored question patterns
    (with `help` required to match exactly). -/
def questionPattern (m : String) : Bool :=
  questionStarts.any (fun q => q.data.isPrefixOf m.data) || m == "help"

/-- Action verbs whose presence classifies the message as a task. -/
def actionVerbs : List String :=
  ["login", "log in", "sign in", "signin",
   "click", "press", "tap", "select",
   "fill", "enter", "type", "input", "write",
   "submit", "send", "post", "upload",
   "add", "create", "make", "build",
   "go to", "navigate", "open", "visit",
   "find", "search", "look for",
   "download", "save", "export",
   "figure out", "learn", "teach", "show me"]

/-- The pre-flight classifier: greetings and anchored questions are
    questions; any action verb makes it a task; otherwise short messages
    without the word workflow are questions; the default is a task. -/
def isJustAQuestion (message : String) : Bool :=
  let m := strToLower (jsTrim message)
  if greetingOnly m then true
  else if questionPattern m then true
  else if actionVerbs.any (fun v => strContains m v) then false
  else if m.length < 15 && !(strContains m "workflow") then true
  else false

/-! ## Run state and the full runAgent control flow -/

/-- The module-level mutable agent state of the background worker. -/
structure AgentState where
  running : Bool
  goal : Option String
  authToken : Option String
  workflowId : Option Nat
  tabId : Option Nat
  messageHistory : List String
  lastMouseX : Int
  lastMouseY : Int
  actionHistory : List HistEntry
  currentStep : Nat
  deriving DecidableEq, Repr

/-- The active tab returned by the tabs query. -/
structure Tab where
  id : Option Nat
  url : Option String
  deriving DecidableEq, Repr

/-- Environment for one whole run: the active tab, the result of the
    workflow-creation request, whether the content script answered (and,
    failing that, whether injection succeeded), and the per-pass loop
    environments. -/
structure RunEnv where
  tab : Tab
  workflowResult : Except String Nat
  pageInfoOk : Bool
  injectOk : Bool
  passes : List PassEnv

/-- How a call to runAgent returns to its caller. -/
inductive RunOutcome where
  | thrown (msg : String)
  | questionHelp
  | finished (exit : LoopExit)
  deriving DecidableEq, Repr

/-- Observable result of a run: the outcome, the module state afterwards,
    and the trace of actions handed to the executor. -/
structure RunReport where
  outcome : RunOutcome
  state : AgentState
  executed : List DecAction
  deriving Repr

/-- The browser-internal-page guard: a missing or empty URL, or one of
    the restricted schemes. -/
def internalUrl : Option String → Bool
  | none => true
  | some u =>
      u = "" || strStartsWith u "chrome://" || strStartsWith u "edge://" ||
        strStartsWith u "about:"

/-- Contents of the stop/teardown helper (stopAgent): clear the running
    flag, the goal, the conversation history and the action history. -/
def stopAgentState (st : AgentState) : AgentState :=
  { st with running := false, goal := none, messageHistory := [], actionHistory := [] }

/-- The full runAgent control flow.  The single-flight guard and the
    question check precede any state mutation; the state reset, the tab
    and URL guards, workflow creation and content-script loading precede
    the try block; only the loop runs inside try/finally, so only exits
    reached from the loop are followed by teardown.  The artificial
    `outOfEnv` loop exit models a loop pass that never finished, so no
    teardown happens there either. -/
def runAgent (goal authToken : String) (st : AgentState) (env : RunEnv) : RunReport :=
  if st.running then ⟨.thrown "Agent is already running", st, []⟩
  else if isJustAQuestion goal then ⟨.questionHelp, st, []⟩
  else
    let st1 := { st with
      running := true, goal := some goal, authToken := some authToken,
      messageHistory := [], lastMouseX := 0, lastMouseY := 0,
      actionHistory := [], currentStep := 0 }
    match env.tab.id with
    | none => ⟨.thrown "No active tab found", st1, []⟩
    | some tid =>
        if internalUrl env.tab.url then
          ⟨.thrown "Cannot automate on browser internal pages. Please navigate to a regular website (http:// or https://)", st1, []⟩
        else
          let st2 := { st1 with tabId := some tid }
          match env.workflowResult with
          | .error e => ⟨.thrown ("Failed to create workflow: " ++ e), st2, []⟩
          | .ok wid =>
              let st3 := { st2 with workflowId := some wid }
              if !env.pageInfoOk && !env.injectOk then
                ⟨.thrown "Failed to load automation script on this page. Try refreshing the page.", st3, []⟩
              else
                let lr := agentLoop env.passes 0 [] 0 []
                if lr.exit = .outOfEnv then
                  ⟨.finished .outOfEnv,
                   { st3 with actionHistory := lr.history, currentStep := lr.currentStep },
                   lr.executed⟩
                else
                  ⟨.finished lr.exit,
                   stopAgentState { st3 with
                     actionHistory := lr.history, currentStep := lr.currentStep },
                   lr.executed⟩

/-- The idle module state at worker start. -/
def idleState : AgentState :=
  { running := false, goal := none, authToken := none, workflowId := none,
    tabId := none, messageHistory := [], lastMouseX := 0, lastMouseY := 0,
    actionHistory := [], currentStep := 0 }

/-- A run environment whose pre-loop phase succeeds on an ordinary page. -/
def happyEnv (passes : List PassEnv) : RunEnv :=
  { tab := ⟨some 1, some "https://example.com"⟩, workflowResult := .ok 7,
    pageInfoOk := true, injectOk := true, passes := passes }

/-! ## The action executor (src/unnamed/part_001)

  Embeds the `type` and `type_at_cursor` paths of `executeAction`
  (together with `noop` and the unknown-kind failure).  The remaining
  kinds drive DOM APIs that carry no state relevant to the claims.
  Element lookup is modelled as already resolved: the page state holds
  the element addressed by the selector and the focused element.  A step
  returns the page state after the action plus an optional error
  message, so a failure's effect on the page is observable. -/

/-- A text input or textarea element addressed by a selector. -/
structure TextEl where
  value : String
  inputEvents : Nat
  changeEvents : Nat
  deriving DecidableEq, Repr

/-- The focused input or textarea element used by type_at_cursor,
    with its selection range. -/
structure FieldEl where
  value : String
  selStart : Option Nat
  selEnd : Option Nat
  inputEvents : Nat
  changeEvents : Nat
  deriving DecidableEq, Repr

/-- Page state: the element a selector resolves to and the active
    (focused) element.  The contenteditable branch of type_at_cursor
    drives synthetic keyboard events instead and is outside this model. -/
structure PageState where
  typeTarget : TextEl
  active : FieldEl
  deriving DecidableEq, Repr

/-- The executor actions modelled here. -/
inductive ExecAction where
  | typeAction (selector : Option String) (text : JsVal) (value : JsVal)
  | typeAtCursorAction (text : JsVal)
  | noopAction
  | otherAction (kind : String)
  deriving DecidableEq, Repr

/-- The `typeText` helper: after the element is resolved, a non-string
    text value fails before the element is touched; otherwise the value
    is cleared and the characters are appended one at a time, with an
    input event per character and one final change event. -/
def typeTextModel (el : TextEl) (text : JsVal) : TextEl × Option String :=
  match text with
  | .str s =>
      let cleared := { el with value := "" }
      let typed := s.data.foldl
        (fun (e : TextEl) c =>
          { e with value := e.value.push c, inputEvents := e.inputEvents + 1 })
        cleared
      ({ typed with changeEvents := typed.changeEvents + 1 }, none)
  | t => (el, some ("Invalid text value: expected string, got " ++ typeofName t))

/-- The JavaScript `n || d` idiom on an optional index (0 is falsy). -/
def jsOrNat (v : Option Nat) (d : Nat) : Nat :=
  match v with
  | some n => if n = 0 then d else n
  | none => d

/-- The input/textarea branch of `typeAtCursor`: the string check comes
    first; then the text is inserted at the cursor position computed
    with the `selectionStart || length` idiom, the selection collapses
    after the inserted text, and one input plus one change event fire. -/
def typeAtCursorModel (el : FieldEl) (text : JsVal) : FieldEl × Option String :=
  match text with
  | .str s =>
      let cursorPos := jsOrNat el.selStart el.value.data.length
      let endPos := jsOrNat el.selEnd cursorPos
      let newVal :=
        String.mk (el.value.data.take cursorPos) ++ s ++ String.mk (el.value.data.drop endPos)
      ({ value := newVal, selStart := some (cursorPos + s.length),
         selEnd := some (cursorPos + s.length),
         inputEvents := el.inputEvents + 1, changeEvents := el.changeEvents + 1 }, none)
  | t => (el, some ("Invalid text value: expected string, got " ++ typeofName t))

/-- The `executeAction` dispatch for the modelled kinds.  The `type`
    case funnels `action.text || action.value || empty-string` into
    `typeText`; `type_at_cursor` passes `action.text` through unchanged;
    an unknown kind is a failure. -/
def executeActionModel (a : ExecAction) (pg : PageState) : PageState × Option String :=
  match a with
  | .typeAction _ text v =>
      let arg := jsOr (jsOr text v) (.str "")
      let r := typeTextModel pg.typeTarget arg
      ({ pg with typeTarget := r.1 }, r.2)
  | .typeAtCursorAction text =>
      let r := typeAtCursorModel pg.active text
      ({ pg with active := r.1 }, r.2)
  | .noopAction => (pg, none)
  | .otherAction kind => (pg, some ("Unknown action: " ++ kind))

/-! ## Lemmas about the token scanner -/

/-- Length bound for `takeWhile`. -/
theorem takeWhile_len_le (p : Char → Bool) :
    ∀ l : List Char, (l.takeWhile p).length ≤ l.length := by
  intro l
  induction l with
  | nil => simp [List.takeWhile]
  | cons c t ih =>
      simp only [List.takeWhile]
      cases p c
      · simp
      · simp
        omega

/-- A successful token match consumes at least three characters beyond
    the remainder it returns. -/
theorem matchToken_length {cs run tail : List Char}
    (h : matchToken cs = some (run, tail)) : tail.length + 3 ≤ cs.length := by
  unfold matchToken at h
  set r := cs.takeWhile isWordChar with hr
  have hle : r.length ≤ cs.length := by rw [hr]; exact takeWhile_len_le _ _
  by_cases hz : r.length = 0
  · simp [hz] at h
  · simp only [hz, if_false] at h
    rcases hd : cs.drop r.length with _ | ⟨c1, t1⟩
    · rw [hd] at h; simp at h
    · rcases t1 with _ | ⟨c2, t2⟩
      · rw [hd] at h; simp at h
      · rw [hd] at h
        by_cases hbr : c1 = cbrace ∧ c2 = cbrace
        · obtain ⟨hb1, hb2⟩ := hbr
          subst hb1
          subst hb2
          simp only [eq_self_iff_true, and_self, if_true, Option.some.injEq,
            Prod.mk.injEq] at h
          have hlen : (cs.drop r.length).length = cs.length - r.length :=
            List.length_drop _ _
          rw [hd] at hlen
          simp only [List.length_cons] at hlen
          have htt : t2 = tail := h.2
          rw [htt] at hlen
          omega
        · simp [hbr] at h

/-- `takeWhile` and `drop` on a word run followed by a non-word
    character. -/
theorem takeWhile_drop_run {t : List Char} (x : Char) (l : List Char)
    (ht : ∀ c ∈ t, isWordChar c = true) (hx : isWordChar x = false) :
    (t ++ x :: l).takeWhile isWordChar = t ∧ (t ++ x :: l).drop t.length = x :: l := by
  induction t with
  | nil => simp [List.takeWhile, hx]
  | cons c t2 ih =>
      have hc : isWordChar c = true := ht c (by simp)
      have ih2 := ih (fun d hd => ht d (by simp [hd]))
      constructor
      · simp only [List.cons_append, List.takeWhile, hc]
        rw [show (t2.append (x :: l)) = t2 ++ x :: l from rfl, ih2.1]
      · simp only [List.cons_append, List.length_cons, List.drop_succ_cons]
        exact ih2.2

/-- The closing brace is not a word character. -/
theorem cbrace_not_word : isWordChar cbrace = false := by decide

/-- A well-formed token heading the scanned text matches exactly. -/
theorem matchToken_exact {t : List Char} (suf : List Char)
    (hne : t ≠ []) (hw : ∀ c ∈ t, isWordChar c = true) :
    matchToken (t ++ cbrace :: cbrace :: suf) = some (t, suf) := by
  have h := takeWhile_drop_run cbrace (cbrace :: suf) hw cbrace_not_word
  unfold matchToken
  rw [h.1]
  have hlen : ¬ t.length = 0 := by
    cases t with
    | nil => exact absurd rfl hne
    | cons a b => simp
  rw [if_neg hlen, h.2]
  simp

/-- Unfolding: zero fuel returns the text unscanned. -/
theorem substFuel_zero (f : String → String) (cs : List Char) :
    substFuel f 0 cs = cs := rfl

/-- Unfolding: scanning the empty text. -/
theorem substFuel_nil_eq (f : String → String) (fuel : Nat) :
    substFuel f (fuel + 1) [] = [] := rfl

/-- Unfolding: a non-brace head character is copied. -/
theorem substFuel_cons_ne (f : String → String) {c : Char} (fuel : Nat) (rest : List Char)
    (hc : c ≠ obrace) : substFuel f (fuel + 1) (c :: rest) = c :: substFuel f fuel rest := by
  simp only [substFuel, hc, if_false]

/-- Unfolding: a lone trailing brace is copied. -/
theorem substFuel_brace_last (f : String → String) (fuel : Nat) :
    substFuel f (fuel + 1) [obrace] = [obrace] := rfl

/-- Unfolding: a brace not followed by a second brace is copied. -/
theorem substFuel_brace_one (f : String → String) {c2 : Char} (fuel : Nat) (rest2 : List Char)
    (hc2 : c2 ≠ obrace) :
    substFuel f (fuel + 1) (obrace :: c2 :: rest2) =
      obrace :: substFuel f fuel (c2 :: rest2) := by
  simp [substFuel, hc2]

/-- Unfolding: two opening braces dispatch on the token match. -/
theorem substFuel_brace2 (f : String → String) (fuel : Nat) (rest2 : List Char) :
    substFuel f (fuel + 1) (obrace :: obrace :: rest2) =
      (match matchToken rest2 with
       | some (run, tail) => (f (String.mk run)).data ++ substFuel f fuel tail
       | none => obrace :: substFuel f fuel (obrace :: rest2)) := rfl

/-- Fuel irrelevance: any fuel at least the list length computes the
    same scan. -/
theorem substFuel_adequate (f : String → String) :
    ∀ n m cs, cs.length ≤ n → cs.length ≤ m → substFuel f n cs = substFuel f m cs := by
  intro n
  induction n with
  | zero =>
      intro m cs hn _
      have hcs : cs = [] := List.eq_nil_of_length_eq_zero (by omega)
      subst hcs
      cases m <;> rfl
  | succ k ih =>
      intro m cs hn hm
      cases cs with
      | nil => cases m <;> rfl
      | cons c rest =>
          cases m with
          | zero => simp at hm
          | succ m2 =>
              simp only [List.length_cons] at hn hm
              by_cases hc : c = obrace
              · subst hc
                cases rest with
                | nil => rfl
                | cons c2 rest2 =>
                    simp only [List.length_cons] at hn hm
                    by_cases hc2 : c2 = obrace
                    · subst hc2
                      rw [substFuel_brace2, substFuel_brace2]
                      rcases hmt : matchToken rest2 with _ | ⟨run, tail⟩
                      · simp only [hmt]
                        rw [ih m2 (obrace :: rest2) (by simp; omega) (by simp; omega)]
                      · have htl := matchToken_length hmt
                        simp only [hmt]
                        rw [ih m2 tail (by omega) (by omega)]
                    · rw [substFuel_brace_one f k rest2 hc2,
                        substFuel_brace_one f m2 rest2 hc2,
                        ih m2 (c2 :: rest2) (by simp; omega) (by simp; omega)]
              · rw [substFuel_cons_ne f k rest hc, substFuel_cons_ne f m2 rest hc,
                  ih m2 rest (by omega) (by omega)]

/-- Scanning an empty text yields an empty result. -/
theorem substChars_nil (f : String → String) : substChars f [] = [] := rfl

/-- A non-brace head character is copied verbatim by the scan. -/
theorem substChars_cons_ne (f : String → String) {c : Char} (rest : List Char)
    (hc : c ≠ obrace) : substChars f (c :: rest) = c :: substChars f rest := by
  simp only [substChars, List.length_cons]
  exact substFuel_cons_ne f rest.length rest hc

/-- A well-formed token at the head of the text is replaced through the
    callback and the scan continues after its closing braces. -/
theorem substChars_token (f : String → String) {t : List Char} (suf : List Char)
    (hne : t ≠ []) (hw : ∀ c ∈ t, isWordChar c = true) :
    substChars f (obrace :: obrace :: (t ++ cbrace :: cbrace :: suf)) =
      (f (String.mk t)).data ++ substChars f suf := by
  have hmt := matchToken_exact suf hne hw
  have hone : 1 ≤ t.length := by
    cases t with
    | nil => exact absurd rfl hne
    | cons a b => simp
  simp only [substChars, List.length_cons]
  rw [substFuel_brace2]
  simp only [hmt]
  congr 1
  apply substFuel_adequate
  · simp
    omega
  · exact Nat.le_refl _

/-- Characters before the first brace pass through the scan unchanged. -/
theorem substChars_skip (f : String → String) :
    ∀ pre rest : List Char, (∀ c ∈ pre, c ≠ obrace) →
      substChars f (pre ++ rest) = pre ++ substChars f rest := by
  intro pre
  induction pre with
  | nil => simp
  | cons c t ih =>
      intro rest hp
      have hc : c ≠ obrace := hp c (by simp)
      rw [List.cons_append, substChars_cons_ne f _ hc,
        ih rest (fun d hd => hp d (by simp [hd])), List.cons_append]

/-! ## String-level substitution lemmas -/

/-- Character data of a string concatenation. -/
theorem strData_append (a b : String) : (a ++ b).data = a.data ++ b.data := rfl

/-- Strings with the same character data are equal. -/
theorem strExt {a b : String} (h : a.data = b.data) : a = b := by
  cases a
  cases b
  simp_all

/-- The scan of a text made of a brace-free prefix, one well-formed
    token and an arbitrary remainder: the prefix passes through, the
    token goes through the replacement callback, and the remainder is
    scanned on its own. -/
theorem replacePlaceholders_mid (l : Listing) (pre tok suf : String)
    (hpre : ∀ c ∈ pre.data, c ≠ obrace) (hne : tok.data ≠ [])
    (hw : ∀ c ∈ tok.data, isWordChar c = true) :
    replacePlaceholders l (pre ++ tokOpen ++ tok ++ tokClose ++ suf) =
      pre ++ resolveToken l tok ++ replacePlaceholders l suf := by
  apply strExt
  have hdata : (pre ++ tokOpen ++ tok ++ tokClose ++ suf).data =
      pre.data ++ (obrace :: obrace :: (tok.data ++ cbrace :: cbrace :: suf.data)) := by
    simp only [strData_append]
    simp [tokOpen, tokClose, List.append_assoc]
  show (substChars (resolveToken l) (pre ++ tokOpen ++ tok ++ tokClose ++ suf).data) = _
  rw [hdata, substChars_skip _ _ _ hpre, substChars_token _ _ hne hw]
  show pre.data ++ ((resolveToken l (String.mk tok.data)).data ++
      substChars (resolveToken l) suf.data) =
    (pre ++ resolveToken l tok ++ replacePlaceholders l suf).data
  rw [show String.mk tok.data = tok from rfl]
  simp only [strData_append]
  show pre.data ++ ((resolveToken l tok).data ++ substChars (resolveToken l) suf.data) =
    pre.data ++ (resolveToken l tok).data ++ (replacePlaceholders l suf).data
  rw [show (replacePlaceholders l suf).data = substChars (resolveToken l) suf.data from rfl]
  simp [List.append_assoc]

/-- A single well-formed token is exactly the replacement callback's
    answer. -/
theorem replacePlaceholders_single (l : Listing) (tok : String)
    (hne : tok.data ≠ []) (hw : ∀ c ∈ tok.data, isWordChar c = true) :
    replacePlaceholders l (tokOpen ++ tok ++ tokClose) = resolveToken l tok := by
  have h := replacePlaceholders_mid l "" tok "" (by simp) hne hw
  rw [show replacePlaceholders l "" = "" from rfl] at h
  simpa using h

/-! ## Lemmas about the agent loop -/

/-- The executed-actions trace only ever grows. -/
theorem agentLoop_executed_mono :
    ∀ (envs : List PassEnv) (i : Nat) (hist : List HistEntry) (step : Nat)
      (ex : List DecAction),
      ∃ tl, (agentLoop envs i hist step ex).executed = ex ++ tl := by
  intro envs
  induction envs with
  | nil =>
      intro i hist step ex
      refine ⟨[], ?_⟩
      unfold agentLoop
      split <;> simp
  | cons e rest ih =>
      intro i hist step ex
      rcases hps : passStep e i hist step with ⟨x, it2⟩ | ⟨it2, h2, s2, a⟩
      · refine ⟨[], ?_⟩
        simp [agentLoop, hps]
      · obtain ⟨tl, htl⟩ := ih it2 h2 s2 (ex ++ [a])
        refine ⟨a :: tl, ?_⟩
        simp only [agentLoop, hps, htl]
        simp

/-- Appending through `pushTrim` keeps the buffer within ten entries. -/
theorem pushTrim_length_le {hist : List HistEntry} {e : HistEntry}
    (h : hist.length ≤ 10) : (pushTrim hist e).length ≤ 10 := by
  simp only [pushTrim]
  split
  · simp only [List.length_drop, List.length_append, List.length_singleton]
    omega
  · rename_i hle
    simp only [List.length_append, List.length_singleton] at hle ⊢
    omega

/-- `pushTrim` returns a suffix of the appended list: the most recent
    entries are preserved, anything evicted came from the front. -/
theorem pushTrim_suffix (hist : List HistEntry) (e : HistEntry) :
    ∃ dropped, hist ++ [e] = dropped ++ pushTrim hist e := by
  simp only [pushTrim]
  split
  · exact ⟨(hist ++ [e]).take 1, (List.take_append_drop 1 (hist ++ [e])).symm⟩
  · exact ⟨[], rfl⟩

/-- A pass that continues the loop pushed exactly one history entry. -/
theorem passStep_next_hist {e : PassEnv} {i : Nat} {hist : List HistEntry} {step : Nat}
    {it2 : Nat} {h2 : List HistEntry} {s2 : Nat} {a : DecAction}
    (h : passStep e i hist step = .next it2 h2 s2 a) :
    ∃ en, h2 = pushTrim hist en := by
  simp only [passStep] at h
  split at h
  · cases h
  · split at h
    · cases h
    · split at h
      · cases h
      · cases h
      · split at h
        · cases h
        · split at h
          · cases h
          · split at h
            · cases h
              exact ⟨_, rfl⟩
            · cases h
              exact ⟨_, rfl⟩

/-- The loop never lets the history exceed ten entries. -/
theorem agentLoop_hist_le :
    ∀ (envs : List PassEnv) (i : Nat) (hist : List HistEntry) (step : Nat)
      (ex : List DecAction), hist.length ≤ 10 →
      (agentLoop envs i hist step ex).history.length ≤ 10 := by
  intro envs
  induction envs with
  | nil =>
      intro i hist step ex h
      unfold agentLoop
      split <;> simpa
  | cons e rest ih =>
      intro i hist step ex h
      rcases hps : passStep e i hist step with ⟨x, it2⟩ | ⟨it2, h2, s2, a⟩
      · simpa [agentLoop, hps] using h
      · obtain ⟨en, hen⟩ := passStep_next_hist hps
        simp only [agentLoop, hps]
        exact ih it2 h2 s2 (ex ++ [a]) (hen ▸ pushTrim_length_le h)

/-! ## Non-emptiness of number rendering (for the substitution engine) -/

/-- The digit accumulator never shrinks. -/
theorem toDigitsCore_len (b : Nat) :
    ∀ (fuel n : Nat) (ds : List Char), ds.length ≤ (Nat.toDigitsCore b fuel n ds).length := by
  intro fuel
  induction fuel with
  | zero => intro n ds; simp [Nat.toDigitsCore]
  | succ k ih =>
      intro n ds
      simp only [Nat.toDigitsCore]
      split
      · simp
      · calc ds.length ≤ (Nat.digitChar (n % b) :: ds).length := by simp
          _ ≤ _ := ih _ _

/-- Rendering a natural number produces at least one digit. -/
theorem toDigits_ne_nil (b n : Nat) : Nat.toDigits b n ≠ [] := by
  unfold Nat.toDigits
  simp only [Nat.toDigitsCore]
  split
  · simp
  · intro hcon
    have h1 := toDigitsCore_len b n (n / b) [Nat.digitChar (n % b)]
    rw [hcon] at h1
    simp at h1

/-! ## Concrete pass environments and evaluation lemmas -/

/-- A pass whose decision call succeeds immediately with payload `p` and
    whose action execution returns `eo` (no error, or a thrown message). -/
def mkExecPass (p : DecisionPayload) (eo : Option String) : PassEnv :=
  ⟨false, fun _ => .ok (some p), eo⟩

/-- Evaluation of a pass with an immediate decision, a non-terminal
    payload and a successful execution. -/
theorem passStep_exec_ok (p : DecisionPayload) (a : DecAction)
    (i : Nat) (hist : List HistEntry) (step : Nat)
    (ha : p.action = some a) (hph : completionPhrase (p.response.getD "") = false)
    (hi : i < 50) :
    passStep (mkExecPass p none) i hist step =
      .next (i + 1) (pushTrim hist ⟨a.action, a.selector, "success"⟩) (step + 1) a := by
  unfold passStep mkExecPass
  simp only [decisionRetryLoop, retryGo]
  simp [hph, ha, Nat.not_le.mpr hi]

/-- Evaluation of a pass with an immediate decision, a non-terminal
    payload and a failed execution: the iteration counter is given back. -/
theorem passStep_exec_fail (p : DecisionPayload) (a : DecAction) (msg : String)
    (i : Nat) (hist : List HistEntry) (step : Nat)
    (ha : p.action = some a) (hph : completionPhrase (p.response.getD "") = false)
    (hi : i < 50) :
    passStep (mkExecPass p (some msg)) i hist step =
      .next i
        (pushTrim hist ⟨jsOrStr a.action "unknown", a.selector, "failed: " ++ msg⟩)
        step a := by
  unfold passStep mkExecPass
  simp only [decisionRetryLoop, retryGo]
  simp [hph, ha, Nat.not_le.mpr hi]

/-! ## Shared concrete fixtures for witnesses and counterexamples -/

/-- A listing fixture: address and city set, numbers absent, a small
    free-form data bag. -/
def demoListing : Listing :=
  { address := some "123 Main St", city := some "Miami", state := none,
    zipCode := none, description := none, mlsNumber := none, price := none,
    bedrooms := none, bathrooms := none, squareFeet := none,
    listingData := [("Note", .str "corner lot"), ("Flag", .bool false)] }

/-- A non-terminal decision payload fixture (click a field). -/
def pDemo : DecisionPayload :=
  ⟨some "clicking the save button", some ⟨"click", some "#save", none⟩, none⟩

/-! ## Claim theorems -/

/-- C5: starting a run while another run is already running fails with
    the already-running error and leaves the first run's state (goal,
    history, counters) untouched, so at most one run is running per
    orchestrator instance. -/
theorem spec_c5_single_flight (goal tok : String) (st : AgentState) (env : RunEnv)
    (h : st.running = true) :
    runAgent goal tok st env = ⟨.thrown "Agent is already running", st, []⟩ := by
  unfold runAgent
  simp [h]

/-- C5 witness: a concrete busy state rejects a second start untouched. -/
theorem spec_c5_single_flight_witness :
    runAgent "click the main button" "token" ⟨true, some "first goal", some "token",
        some 4, some 9, [], 0, 0, [⟨"click", some "#a", "success"⟩], 3⟩ (happyEnv []) =
      ⟨.thrown "Agent is already running", ⟨true, some "first goal", some "token",
        some 4, some 9, [], 0, 0, [⟨"click", some "#a", "success"⟩], 3⟩, []⟩ :=
  spec_c5_single_flight _ _ _ _ rfl

/-- C9: over any run the action-history buffer never exceeds ten
    entries, and each append preserves the most recent entries (whatever
    is evicted is a prefix of the appended list). -/
theorem spec_c9_history_ring (envs : List PassEnv) (i : Nat) (hist : List HistEntry)
    (step : Nat) (ex : List DecAction) (h : hist.length ≤ 10) :
    (agentLoop envs i hist step ex).history.length ≤ 10 ∧
    ∀ e2 : HistEntry, ∃ dropped, hist ++ [e2] = dropped ++ pushTrim hist e2 :=
  ⟨agentLoop_hist_le envs i hist step ex h, fun e2 => pushTrim_suffix hist e2⟩

/-- C9 witness: twelve straight successful passes leave at most ten
    history entries. -/
theorem spec_c9_history_ring_witness :
    (agentLoop (List.replicate 12 (mkExecPass pDemo none)) 0 [] 0 []).history.length ≤ 10 :=
  (spec_c9_history_ring (List.replicate 12 (mkExecPass pDemo none)) 0 [] 0 []
    (by decide)).1

/-- C2: an iteration in which execution fails K times before a success
    consumes exactly one unit of the 50-iteration budget: the failing
    passes decrement the counter they incremented, and only the
    succeeding pass advances it (together with the step cursor). -/
theorem spec_c2_iteration_accounting (p : DecisionPayload) (a : DecAction) (msg : String)
    (K i : Nat) (hist : List HistEntry) (step : Nat) (ex : List DecAction)
    (rest : List PassEnv)
    (ha : p.action = some a)
    (hph : completionPhrase (p.response.getD "") = false)
    (hi : i < 50) :
    ∃ hist2 ex2,
      agentLoop (List.replicate K (mkExecPass p (some msg)) ++ mkExecPass p none :: rest)
          i hist step ex =
        agentLoop rest (i + 1) hist2 (step + 1) ex2 := by
  induction K generalizing hist ex with
  | zero =>
      refine ⟨pushTrim hist ⟨a.action, a.selector, "success"⟩, ex ++ [a], ?_⟩
      simp only [List.replicate, List.nil_append, agentLoop,
        passStep_exec_ok p a i hist step ha hph hi]
  | succ k ih =>
      have hfail := passStep_exec_fail p a msg i hist step ha hph hi
      simp only [List.replicate_succ, List.cons_append, agentLoop, hfail]
      exact ih _ _

/-- C2 witness: two failed attempts then a success advance the counter
    from 0 to exactly 1. -/
theorem spec_c2_iteration_accounting_witness :
    ∃ hist2 ex2,
      agentLoop (List.replicate 2 (mkExecPass pDemo (some "Element not found: #save")) ++
          mkExecPass pDemo none :: []) 0 [] 0 [] =
        agentLoop [] 1 hist2 1 ex2 :=
  spec_c2_iteration_accounting pDemo ⟨"click", some "#save", none⟩
    "Element not found: #save" 2 0 [] 0 [] [] rfl (by decide) (by decide)

/-- Rendering an integer never yields the empty string. -/
theorem intToString_ne_empty (n : Int) : toString n ≠ "" := by
  cases n with
  | ofNat m =>
      show Nat.repr m ≠ ""
      unfold Nat.repr
      intro hcon
      apply toDigits_ne_nil 10 m
      have hdata := congrArg String.data hcon
      simpa [List.asString] using hdata
  | negSucc m =>
      show "-" ++ Nat.repr (m + 1) ≠ ""
      intro hcon
      have hdata := congrArg String.data hcon
      simp [strData_append] at hdata

/-- The string coercion of a truthy value is never empty. -/
theorem jsToString_truthy_ne (w : JsVal) (h : jsTruthy w = true) : jsToString w ≠ "" := by
  cases w with
  | str s =>
      simp only [jsTruthy] at h
      by_cases hs : s = ""
      · rw [if_pos hs] at h; cases h
      · simpa [jsToString] using hs
  | num n => exact intToString_ne_empty n
  | bool b =>
      cases b
      · cases h
      · simp [jsToString]
  | null => cases h
  | undef => cases h

/-- The literal text of a token is never the empty string. -/
theorem tokenLiteral_ne_empty (tok : String) : tokOpen ++ tok ++ tokClose ≠ "" := by
  intro h
  have hd := congrArg String.data h
  simp [strData_append, tokOpen, tokClose] at hd

/-- C7: a token whose lower-cased identifier resolves to nothing in the
    canonical field map and is absent from the record's free-form data
    bag is left verbatim in the output, while scanning continues in the
    remainder of the text; an unresolved token is not an error. -/
theorem spec_c7_unresolved_token (l : Listing) (pre tok suf : String)
    (hpre : ∀ c ∈ pre.data, c ≠ obrace)
    (hne : tok.data ≠ [])
    (hw : ∀ c ∈ tok.data, isWordChar c = true)
    (hcanon : fieldMapLookup l (strToLower tok) = none)
    (hbag : assocLookup tok l.listingData = none) :
    replacePlaceholders l (pre ++ tokOpen ++ tok ++ tokClose ++ suf) =
      pre ++ tokOpen ++ tok ++ tokClose ++ replacePlaceholders l suf := by
  have hres : resolveToken l tok = tokOpen ++ tok ++ tokClose := by
    simp [resolveToken, hcanon, hbag, truthyOptStr]
  rw [replacePlaceholders_mid l pre tok suf hpre hne hw, hres]
  apply strExt
  simp [strData_append, List.append_assoc]

/-- C7 witness: an unknown token survives verbatim while a canonical one
    after it is still substituted. -/
theorem spec_c7_unresolved_token_witness :
    replacePlaceholders demoListing
        ("go to " ++ tokOpen ++ "UNKNOWNFIELD" ++ tokClose ++
          (" in " ++ tokOpen ++ "CITY" ++ tokClose)) =
      "go to " ++ tokOpen ++ "UNKNOWNFIELD" ++ tokClose ++
        replacePlaceholders demoListing (" in " ++ tokOpen ++ "CITY" ++ tokClose) ∧
    replacePlaceholders demoListing (" in " ++ tokOpen ++ "CITY" ++ tokClose) = " in Miami" :=
  ⟨spec_c7_unresolved_token demoListing "go to " "UNKNOWNFIELD"
      (" in " ++ tokOpen ++ "CITY" ++ tokClose)
      (by decide) (by decide) (by decide) (by decide) (by decide),
   by decide⟩

/-- C10: a token naming a canonical field is replaced by the canonical
    value only when that value is truthy; a falsy canonical value falls
    through to the free-form bag under the token's original spelling,
    then to the literal token; the output for such a token is never the
    empty string. -/
theorem spec_c10_canonical_fallthrough (l : Listing) (tok : String)
    (hne : tok.data ≠ []) (hw : ∀ c ∈ tok.data, isWordChar c = true)
    (_hcf : isCanonicalField (strToLower tok) = true) :
    (∀ v, fieldMapLookup l (strToLower tok) = some v → v ≠ "" →
       replacePlaceholders l (tokOpen ++ tok ++ tokClose) = v) ∧
    (truthyOptStr (fieldMapLookup l (strToLower tok)) = false →
       (∀ w, assocLookup tok l.listingData = some w → jsTruthy w = true →
          replacePlaceholders l (tokOpen ++ tok ++ tokClose) = jsToString w) ∧
       (∀ w, assocLookup tok l.listingData = some w → jsTruthy w = false →
          replacePlaceholders l (tokOpen ++ tok ++ tokClose) =
            tokOpen ++ tok ++ tokClose) ∧
       (assocLookup tok l.listingData = none →
          replacePlaceholders l (tokOpen ++ tok ++ tokClose) =
            tokOpen ++ tok ++ tokClose)) ∧
    replacePlaceholders l (tokOpen ++ tok ++ tokClose) ≠ "" := by
  have hsingle := replacePlaceholders_single l tok hne hw
  refine ⟨?_, ?_, ?_⟩
  · intro v hv hvne
    rw [hsingle]
    simp [resolveToken, hv, truthyOptStr, hvne]
  · intro hfalsy
    refine ⟨?_, ?_, ?_⟩
    · intro w hw2 htr
      rw [hsingle]
      simp [resolveToken, hfalsy, hw2, htr]
    · intro w hw2 htr
      rw [hsingle]
      simp [resolveToken, hfalsy, hw2, htr]
    · intro hnone
      rw [hsingle]
      simp [resolveToken, hfalsy, hnone]
  · rw [hsingle]
    unfold resolveToken
    by_cases ht : truthyOptStr (fieldMapLookup l (strToLower tok)) = true
    · rw [if_pos ht]
      rcases hv : fieldMapLookup l (strToLower tok) with _ | v
      · rw [hv] at ht
        simp [truthyOptStr] at ht
      · rw [hv] at ht
        simp [truthyOptStr] at ht
        simpa using ht
    · rw [if_neg ht]
      rcases hb : assocLookup tok l.listingData with _ | w
      · exact tokenLiteral_ne_empty tok
      · show (if jsTruthy w = true then jsToString w else tokOpen ++ tok ++ tokClose) ≠ ""
        by_cases htw : jsTruthy w = true
        · rw [if_pos htw]
          exact jsToString_truthy_ne w htw
        · rw [if_neg htw]
          exact tokenLiteral_ne_empty tok

/-- C10 witness: a truthy canonical field substitutes its value, and a
    canonical field with no value whose token is absent from the bag
    stays literal (never an empty string). -/
theorem spec_c10_canonical_fallthrough_witness :
    replacePlaceholders demoListing (tokOpen ++ "ADDRESS" ++ tokClose) = "123 Main St" ∧
    replacePlaceholders demoListing (tokOpen ++ "PRICE" ++ tokClose) =
      tokOpen ++ "PRICE" ++ tokClose := by
  have h1 := spec_c10_canonical_fallthrough demoListing "ADDRESS"
    (by decide) (by decide) (by decide)
  have h2 := spec_c10_canonical_fallthrough demoListing "PRICE"
    (by decide) (by decide) (by decide)
  exact ⟨h1.1 "123 Main St" (by decide) (by decide), (h2.2.1 (by decide)).2.2 (by decide)⟩

/-- The terminal action object the backend's end-turn branch attaches to
    a done response. -/
def c1DoneAction : DecAction := ⟨"done", none, none⟩

/-- A decision payload carrying both an explicit done flag and a
    non-null action, with a rationale free of completion phrases. -/
def c1Payload : DecisionPayload :=
  ⟨some "Submitting the listing form now", some c1DoneAction, some true⟩

/-- C1 counterexample: a payload with `done = true` and a non-null
    action still has its action handed to the executor — the loop does
    not treat the run as complete. -/
theorem claim_c1_counterexample :
    c1Payload.done = some true ∧ c1Payload.action = some c1DoneAction ∧
    (agentLoop [mkExecPass c1Payload none] 0 [] 0 []).executed = [c1DoneAction] := by
  refine ⟨rfl, rfl, ?_⟩
  decide

/-- C1 amended: the loop's completion check ignores the payload's
    explicit done flag; with any payload whose rationale lacks the
    completion phrases and whose action is non-null — even one carrying
    `done = true` — the action is executed (it is appended to the
    execution trace), whether execution then succeeds or fails. -/
theorem spec_c1_amended (p : DecisionPayload) (a : DecAction) (eo : Option String)
    (rest : List PassEnv) (i : Nat) (hist : List HistEntry) (step : Nat)
    (ex : List DecAction)
    (_hdone : p.done = some true)
    (ha : p.action = some a)
    (hph : completionPhrase (p.response.getD "") = false)
    (hi : i < 50) :
    ∃ tl, (agentLoop (mkExecPass p eo :: rest) i hist step ex).executed = ex ++ a :: tl := by
  cases eo with
  | none =>
      simp only [agentLoop, passStep_exec_ok p a i hist step ha hph hi]
      obtain ⟨tl, htl⟩ :=
        agentLoop_executed_mono rest (i + 1)
          (pushTrim hist ⟨a.action, a.selector, "success"⟩) (step + 1) (ex ++ [a])
      exact ⟨tl, by rw [htl]; simp⟩
  | some msg =>
      simp only [agentLoop, passStep_exec_fail p a msg i hist step ha hph hi]
      obtain ⟨tl, htl⟩ :=
        agentLoop_executed_mono rest i
          (pushTrim hist ⟨jsOrStr a.action "unknown", a.selector, "failed: " ++ msg⟩)
          step (ex ++ [a])
      exact ⟨tl, by rw [htl]; simp⟩

/-- C1 witness: the concrete done-plus-action payload gets its action
    executed. -/
theorem spec_c1_amended_witness :
    ∃ tl, (agentLoop [mkExecPass c1Payload none] 0 [] 0 []).executed =
      [] ++ c1DoneAction :: tl :=
  spec_c1_amended c1Payload c1DoneAction none [] 0 [] 0 [] rfl rfl (by decide) (by decide)

/-- A decision endpoint that fails at the transport level on every
    attempt. -/
def attBoom : Nat → DecisionResult := fun _ => .transportErr "network down"

/-- C3 counterexample: with every attempt failing, the retry loop makes
    3 attempts but waits only 2s and then 4s between them — the claimed
    8s backoff delay never occurs, because the third failure throws
    before any further wait. -/
theorem claim_c3_counterexample :
    decisionRetryLoop attBoom =
      (.transportErr "API failed after 3 attempts: network down", [2000, 4000]) ∧
    8000 ∉ (decisionRetryLoop attBoom).2 := by
  refine ⟨rfl, ?_⟩
  decide

/-- C3 amended: a transport failure on all three attempts waits 2s and
    then 4s between the attempts, fails the whole iteration with a
    message carrying the attempt count, exits the loop with that hard
    failure, and the run finishes in the failed state with its state
    torn down. -/
theorem spec_c3_retry_exhaustion (att : Nat → DecisionResult) (m0 m1 m2 : String)
    (eo : Option String) (rest : List PassEnv) (i : Nat) (hist : List HistEntry)
    (step : Nat) (ex : List DecAction)
    (h0 : att 0 = .transportErr m0) (h1 : att 1 = .transportErr m1)
    (h2 : att 2 = .transportErr m2) (hi : i < 50) :
    decisionRetryLoop att =
      (.transportErr ("API failed after 3 attempts: " ++ m2), [2000, 4000]) ∧
    agentLoop (⟨false, att, eo⟩ :: rest) i hist step ex =
      ⟨.failedErr ("API failed after 3 attempts: " ++ m2), i + 1, hist, step, ex⟩ ∧
    runAgent "add a new listing for me" "token" idleState
        { tab := ⟨some 1, some "https://example.com"⟩, workflowResult := .ok 7,
          pageInfoOk := true, injectOk := true, passes := [⟨false, att, eo⟩] } =
      ⟨.finished (.failedErr ("API failed after 3 attempts: " ++ m2)),
       { running := false, goal := none, authToken := some "token", workflowId := some 7,
         tabId := some 1, messageHistory := [], lastMouseX := 0, lastMouseY := 0,
         actionHistory := [], currentStep := 0 },
       []⟩ := by
  have hretry : decisionRetryLoop att =
      (.transportErr ("API failed after 3 attempts: " ++ m2), [2000, 4000]) := by
    simp [decisionRetryLoop, retryGo, h0, h1, h2]
  have hps : ∀ (i2 : Nat) (h2l : List HistEntry) (s2 : Nat), i2 < 50 →
      passStep ⟨false, att, eo⟩ i2 h2l s2 =
        .exitNow (.failedErr ("API failed after 3 attempts: " ++ m2)) (i2 + 1) := by
    intro i2 h2l s2 hi2
    unfold passStep
    simp [hretry, Nat.not_le.mpr hi2]
  have hloop : ∀ (rest2 : List PassEnv) (i2 : Nat) (h2l : List HistEntry) (s2 : Nat)
      (ex2 : List DecAction), i2 < 50 →
      agentLoop (⟨false, att, eo⟩ :: rest2) i2 h2l s2 ex2 =
        ⟨.failedErr ("API failed after 3 attempts: " ++ m2), i2 + 1, h2l, s2, ex2⟩ := by
    intro rest2 i2 h2l s2 ex2 hi2
    simp [agentLoop, hps i2 h2l s2 hi2]
  refine ⟨hretry, hloop rest i hist step ex hi, ?_⟩
  have hrun := hloop [] 0 [] 0 [] (by omega)
  show (let lr := agentLoop [(⟨false, att, eo⟩ : PassEnv)] 0 [] 0 []
        if lr.exit = .outOfEnv then
          (⟨.finished .outOfEnv,
            { idleState with
              running := true, goal := some "add a new listing for me",
              authToken := some "token", tabId := some 1, workflowId := some 7,
              actionHistory := lr.history, currentStep := lr.currentStep },
            lr.executed⟩ : RunReport)
        else
          ⟨.finished lr.exit,
           stopAgentState { idleState with
             running := true, goal := some "add a new listing for me",
             authToken := some "token", tabId := some 1, workflowId := some 7,
             actionHistory := lr.history, currentStep := lr.currentStep },
           lr.executed⟩) = _
  rw [hrun]
  simp [idleState, stopAgentState]

/-- C3 witness: the concrete always-failing endpoint exhausts its three
    attempts with 2s and 4s waits and fails the run. -/
theorem spec_c3_retry_exhaustion_witness :
    decisionRetryLoop attBoom =
      (.transportErr ("API failed after 3 attempts: " ++ "network down"), [2000, 4000]) ∧
    agentLoop (⟨false, attBoom, none⟩ :: []) 0 [] 0 [] =
      ⟨.failedErr ("API failed after 3 attempts: " ++ "network down"), 0 + 1, [], 0, []⟩ ∧
    runAgent "add a new listing for me" "token" idleState
        { tab := ⟨some 1, some "https://example.com"⟩, workflowResult := .ok 7,
          pageInfoOk := true, injectOk := true, passes := [⟨false, attBoom, none⟩] } =
      ⟨.finished (.failedErr ("API failed after 3 attempts: " ++ "network down")),
       { running := false, goal := none, authToken := some "token", workflowId := some 7,
         tabId := some 1, messageHistory := [], lastMouseX := 0, lastMouseY := 0,
         actionHistory := [], currentStep := 0 },
       []⟩ :=
  spec_c3_retry_exhaustion attBoom "network down" "network down" "network down"
    none [] 0 [] 0 [] rfl rfl rfl (by decide)

/-- The recorded trace entry used against C6: a navigate step whose url
    field carries a placeholder token. -/
def c6NavAction : RecordedAction :=
  { action := "navigate", selector := none,
    url := some (tokOpen ++ "ADDRESS" ++ tokClose), key := none, reasoning := none,
    text := .undef, value := .undef, step := 1 }

/-- C6 counterexample: the route substitutes only the text and value
    fields, so a string-valued url field keeps its token even though the
    substitution engine would resolve it — the returned entry differs
    from one with every string-valued field substituted. -/
theorem claim_c6_counterexample :
    (getNextAction demoListing [c6NavAction] 0).action =
      some (processAction demoListing c6NavAction) ∧
    (processAction demoListing c6NavAction).url =
      some (tokOpen ++ "ADDRESS" ++ tokClose) ∧
    (processActionSpecWords demoListing c6NavAction).url = some "123 Main St" ∧
    processAction demoListing c6NavAction ≠ processActionSpecWords demoListing c6NavAction := by
  decide

/-- C6 amended: with the cursor at or past the trace length the
    deterministic decision source answers done with no action; otherwise
    it returns the entry at the cursor with only its text and value
    fields run through the substitution engine — action kind, selector,
    url, key, reasoning and step are returned verbatim — together with
    the step index, the total step count and done set to false. -/
theorem spec_c6_deterministic_decide (l : Listing) (acts : List RecordedAction) (cur : Nat) :
    (acts.length ≤ cur → getNextAction l acts cur = ⟨true, none, none, none⟩) ∧
    (∀ h : cur < acts.length,
       getNextAction l acts cur =
         ⟨false, some (processAction l (acts.get ⟨cur, h⟩)), some cur, some acts.length⟩) ∧
    (∀ a : RecordedAction,
       (processAction l a).action = a.action ∧ (processAction l a).selector = a.selector ∧
       (processAction l a).url = a.url ∧ (processAction l a).key = a.key ∧
       (processAction l a).reasoning = a.reasoning ∧ (processAction l a).step = a.step ∧
       (processAction l a).text = substituteJs l a.text ∧
       (processAction l a).value = substituteJs l a.value) := by
  refine ⟨?_, ?_, ?_⟩
  · intro hle
    unfold getNextAction
    rw [dif_neg (by omega)]
  · intro h
    unfold getNextAction
    rw [dif_pos h]
  · intro a
    exact ⟨rfl, rfl, rfl, rfl, rfl, rfl, rfl, rfl⟩

/-- C6 witness: past-the-end cursor answers done; in-range cursor
    returns the processed entry with the step bookkeeping. -/
theorem spec_c6_deterministic_decide_witness :
    getNextAction demoListing [c6NavAction] 5 = ⟨true, none, none, none⟩ ∧
    getNextAction demoListing [c6NavAction] 0 =
      ⟨false, some (processAction demoListing c6NavAction), some 0, some 1⟩ := by
  have h5 := spec_c6_deterministic_decide demoListing [c6NavAction] 5
  have h0 := spec_c6_deterministic_decide demoListing [c6NavAction] 0
  exact ⟨h5.1 (by decide), h0.2.1 (by decide)⟩

/-- Page fixture for the executor claims: the selector target holds a
    previous value, nothing focused has a selection. -/
def c8Page : PageState :=
  { typeTarget := { value := "old", inputEvents := 0, changeEvents := 0 },
    active := { value := "", selStart := none, selEnd := none,
                inputEvents := 0, changeEvents := 0 } }

/-- C8 counterexample: a `type` action whose text is the non-string 0 is
    coerced through `text || value || empty-string` to the empty string,
    so execution succeeds and clears the target's value — a DOM mutation
    — instead of failing. -/
theorem claim_c8_counterexample :
    executeActionModel (.typeAction (some "#addr") (.num 0) .undef) c8Page =
      ({ typeTarget := { value := "", inputEvents := 0, changeEvents := 1 },
         active := c8Page.active }, none) ∧
    c8Page.typeTarget.value = "old" := by
  decide

/-- C8 amended: for `type_at_cursor` any non-string text fails with the
    type-error message before the focused element is touched; for `type`
    the text is first defaulted through `text || value || empty-string`,
    so a truthy non-string fails before any mutation while falsy text
    and value fall back to the empty string and typing proceeds
    (clearing the target's value). -/
theorem spec_c8_type_guard (t v : JsVal) (sel : Option String) (pg : PageState)
    (hns : ∀ s : String, t ≠ .str s) :
    executeActionModel (.typeAtCursorAction t) pg =
        (pg, some ("Invalid text value: expected string, got " ++ typeofName t)) ∧
    (jsTruthy t = true →
       executeActionModel (.typeAction sel t v) pg =
         (pg, some ("Invalid text value: expected string, got " ++ typeofName t))) ∧
    (jsTruthy t = false → jsTruthy v = false →
       executeActionModel (.typeAction sel t v) pg =
         ({ pg with typeTarget := (typeTextModel pg.typeTarget (.str "")).1 }, none)) := by
  refine ⟨?_, ?_, ?_⟩
  · cases t with
    | str s => exact absurd rfl (hns s)
    | num n => rfl
    | bool b => rfl
    | null => rfl
    | undef => rfl
  · intro ht
    cases t with
    | str s => exact absurd rfl (hns s)
    | num n =>
        simp only [executeActionModel, jsOr, ht, if_true]
        rfl
    | bool b =>
        simp only [executeActionModel, jsOr, ht, if_true]
        rfl
    | null => cases ht
    | undef => cases ht
  · intro ht hv
    simp [executeActionModel, jsOr, ht, hv, typeTextModel]

/-- C8 witness: a numeric-zero text fails type_at_cursor outright but
    slides through the type action as an empty string. -/
theorem spec_c8_type_guard_witness :
    executeActionModel (.typeAtCursorAction (.num 0)) c8Page =
      (c8Page, some ("Invalid text value: expected string, got " ++ typeofName (.num 0))) ∧
    executeActionModel (.typeAction (some "#x") (.num 0) .null) c8Page =
      ({ c8Page with typeTarget := (typeTextModel c8Page.typeTarget (.str "")).1 }, none) := by
  have h := spec_c8_type_guard (.num 0) .null (some "#x") c8Page (fun s hcon => by cases hcon)
  exact ⟨h.1, h.2.2 rfl rfl⟩

/-- A run environment whose active tab sits on a browser-internal page. -/
def c4InternalEnv : RunEnv :=
  { tab := ⟨some 3, some "chrome://extensions"⟩, workflowResult := .ok 1,
    pageInfoOk := true, injectOk := true, passes := [] }

/-- C4: evaluation at the failing input.  A pre-loop unrecoverable error
    (browser-internal page) is thrown after the state was marked running
    but before the try/finally that performs teardown: the run ends with
    the running flag still set and the goal still stored, and a
    subsequent start is rejected as already running — the claimed
    teardown does not happen on this termination path. -/
theorem claim_c4_teardown_leak :
    (runAgent "click the submit button" "token" idleState c4InternalEnv).outcome =
      .thrown "Cannot automate on browser internal pages. Please navigate to a regular website (http:// or https://)" ∧
    (runAgent "click the submit button" "token" idleState c4InternalEnv).state.running = true ∧
    (runAgent "click the submit button" "token" idleState c4InternalEnv).state.goal =
      some "click the submit button" ∧
    (runAgent "click the submit button" "token"
        (runAgent "click the submit button" "token" idleState c4InternalEnv).state
        c4InternalEnv).outcome = .thrown "Agent is already running" := by
  decide
